import Mathlib

/-!
Verification of the RBC notebook service: a shallow embedding of the
XML-RPC note server (notebook_server.py) and the failover dispatcher of
the client (notebook_client.py), with theorems settling the specified
properties against it.

Modelling conventions:
* Python values that travel over XML-RPC (with allow_none enabled) are
  embedded as the inductive type `Py`; the Python value None is `Py.none`.
* The XML store file is embedded structurally: the root element is a list
  of topic elements, each topic element a name attribute plus a list of
  note elements, each note element a name attribute plus a text child and
  a timestamp child.  Every server operation reloads the tree from disk,
  so the state between operations is always the written-then-reparsed
  form.  ElementTree parses an element with empty text content back with
  text = None, and the XML parser normalises carriage returns in element
  text to line feeds; `etText` captures both.  Attribute values
  round-trip verbatim because ElementTree escapes ampersand, angle
  brackets and whitespace there.  Characters not allowed in XML 1.0
  (controls below space other than tab, line feed and carriage return)
  are written unescaped and make the backing file unparseable for every
  later operation; that corruption, like I/O failure, is outside the
  model, and the theorems about written data carry `xmlSafe`
  hypotheses confining them to the faithful domain.
* The server locates a topic with root.find applied to the f-string
  XPath "./topic[@name = ...]" built from the raw topic string, so the
  topic text is interpolated into the path unquoted.  `topicValues`
  embeds how ElementPath reads that path on the fragment the
  interpolation can produce: a quote-free topic gives one equality
  predicate on the name attribute; a topic of the shape
  value-quote-glue-quote-value-... , where each glue spells the
  characters ] [ @ name = (whitespace permitted inside the bracket),
  re-closes and re-opens the predicate and gives a conjunction of
  equality predicates, which is how injected topics can match a
  different name or create duplicate elements; every other quote
  pattern is mapped to the error case.  The error case is exact for the
  concrete topics the theorems below use (checked against ElementTree,
  which raises SyntaxError on them), but ElementPath parses some other
  quote patterns as different predicate forms without raising; no
  theorem quantifies over such topics.
* Fallible operations return `Except Unit`; an error models a raised
  Python exception, which SimpleXMLRPCServer turns into a remote fault.
* utcnow is modelled by passing the current UTC clock reading explicitly
  as a `DateTime` argument; strftime with format string
  "%m/%d/%y - %H:%M:%S" is `formatTimestamp`, exact for the field ranges
  a real datetime can hold (every field below 100 after the %y
  reduction).
-/

/-- Code point of the single-quote character, written numerically. -/
def squote : Char := Char.ofNat 39

/-- One-character string holding a single quote. -/
def sqStr : String := String.mk [squote]

/-- Whether the string contains a single-quote character.  A quote-free
topic sits whole inside the quoted literal of the interpolated XPath
and compares by plain string equality; quote-bearing topics change the
shape of the path. -/
def hasSquote (s : String) : Bool := s.data.any (fun c => c == squote)

/-- Python values as marshalled by xmlrpc with allow_none enabled, also
used for decoded JSON values of the Wikipedia response. -/
inductive Py where
  | none : Py
  | bool : Bool → Py
  | int : Int → Py
  | str : String → Py
  | list : List Py → Py

/-- Python truthiness of a `Py` value. -/
def pyTruthy : Py → Bool
  | Py.none => false
  | Py.bool b => b
  | Py.int n => n != 0
  | Py.str s => s != ""
  | Py.list xs => !xs.isEmpty

/-- Python len(), raising TypeError on values without a length. -/
def pyLen : Py → Except Unit Nat
  | Py.str s => Except.ok s.length
  | Py.list xs => Except.ok xs.length
  | _ => Except.error ()

/-- Python integer indexing value[i], raising on out-of-range indices
and on values that do not support integer indexing. -/
def pyIndex : Py → Nat → Except Unit Py
  | Py.list xs, i =>
    match xs.get? i with
    | Option.some v => Except.ok v
    | Option.none => Except.error ()
  | Py.str s, i =>
    match s.data.get? i with
    | Option.some c => Except.ok (Py.str (String.mk [c]))
    | Option.none => Except.error ()
  | _, _ => Except.error ()

/-- A UTC clock reading, the argument strftime formats. -/
structure DateTime where
  month : Nat
  day : Nat
  year : Nat
  hour : Nat
  minute : Nat
  second : Nat

/-- Field ranges a real utcnow() result satisfies. -/
def DateTime.isValid (t : DateTime) : Bool :=
  decide (1 ≤ t.month) && decide (t.month ≤ 12) &&
  decide (1 ≤ t.day) && decide (t.day ≤ 31) &&
  decide (t.hour ≤ 23) && decide (t.minute ≤ 59) && decide (t.second ≤ 59)

/-- Two-digit zero-padded rendering, exact for strftime fields, whose
values here are all below 100. -/
def pad2 (n : Nat) : String := String.mk [Nat.digitChar (n / 10), Nat.digitChar (n % 10)]

/-- strftime with the format string of the source, "%m/%d/%y - %H:%M:%S". -/
def formatTimestamp (t : DateTime) : String :=
  pad2 t.month ++ "/" ++ pad2 t.day ++ "/" ++ pad2 (t.year % 100) ++ " - " ++
  pad2 t.hour ++ ":" ++ pad2 t.minute ++ ":" ++ pad2 t.second

/-- Whether a string has the shape MM/DD/YY - HH:MM:SS. -/
def isTsFormat (s : String) : Bool :=
  match s.data with
  | [m1, m2, a, d1, d2, b, y1, y2, c, e, f, h1, h2, g, n1, n2, i, u1, u2] =>
    m1.isDigit && m2.isDigit && (a == '/') &&
    d1.isDigit && d2.isDigit && (b == '/') &&
    y1.isDigit && y2.isDigit && (c == ' ') && (e == '-') && (f == ' ') &&
    h1.isDigit && h2.isDigit && (g == ':') &&
    n1.isDigit && n2.isDigit && (i == ':') &&
    u1.isDigit && u2.isDigit
  | _ => false

/-- The carriage-return character. -/
def crChar : Char := Char.ofNat 13

/-- The line-feed character. -/
def lfChar : Char := Char.ofNat 10

/-- Whitespace as the ElementPath tokenizer skips it between tokens
(space, tab, line feed, carriage return, vertical tab, form feed). -/
def pathWs (c : Char) : Bool :=
  c == ' ' || c == Char.ofNat 9 || c == lfChar || c == crChar ||
  c == Char.ofNat 11 || c == Char.ofNat 12

/-- Whether a piece of the topic that stands between two quotes forms
the glue that lets ElementPath read the interpolated path as one more
[@name=...] predicate: optional whitespace, a closing bracket, an
opening bracket immediately after it (whitespace between the two
brackets ends the predicate list and leaves the modelled fragment),
then at-sign, the word name and an equals sign, each of which may be
surrounded by whitespace. -/
def isGlue (s : String) : Bool :=
  match s.data.dropWhile pathWs with
  | ']' :: r1 =>
    match r1 with
    | '[' :: r2 =>
      match r2.dropWhile pathWs with
      | '@' :: r3 =>
        match r3.dropWhile pathWs with
        | 'n' :: 'a' :: 'm' :: 'e' :: r4 =>
          match r4.dropWhile pathWs with
          | '=' :: r5 => (r5.dropWhile pathWs).isEmpty
          | _ => false
        | _ => false
      | _ => false
    | _ => false
  | _ => false

/-- Reads the quote-split pieces of the topic as alternating attribute
values and glue: one piece is a single equality predicate, and further
values may follow across glue pieces.  Any other arrangement is outside
the modelled fragment. -/
def xpathValues : List String → Option (List String)
  | [] => Option.none
  | [v] => Option.some [v]
  | v :: g :: rest =>
    if isGlue g then (xpathValues rest).map (fun vs => v :: vs) else Option.none

/-- The name-attribute values the interpolated XPath compares against,
when the topic lies in the modelled fragment: splits the topic at its
quote characters and reads the pieces with xpathValues. -/
def topicValues (topic : String) : Option (List String) :=
  xpathValues ((topic.data.splitOnP (fun c => c == squote)).map String.mk)

/-- Whether the character is allowed in an XML 1.0 document: tab, line
feed, carriage return, and the printable planes.  Other characters are
written unescaped by ElementTree and corrupt the backing file. -/
def xmlChar (c : Char) : Bool :=
  c.toNat == 9 || c.toNat == 10 || c.toNat == 13 ||
  (decide (32 ≤ c.toNat) && decide (c.toNat ≤ 55295)) ||
  (decide (57344 ≤ c.toNat) && decide (c.toNat ≤ 65533)) ||
  (decide (65536 ≤ c.toNat) && decide (c.toNat ≤ 1114111))

/-- Every character of the string is allowed in an XML 1.0 document. -/
def xmlSafe (s : String) : Bool := s.data.all xmlChar

/-- The string contains no carriage return, so XML line-ending
normalisation leaves it unchanged. -/
def crFree (s : String) : Bool := s.data.all (fun c => c != crChar)

/-- XML line-ending normalisation as the parser applies it to element
text on reload: a carriage return followed by a line feed becomes one
line feed, and a lone carriage return becomes a line feed. -/
def normalizeNl : List Char → List Char
  | [] => []
  | [c] => if c == crChar then [lfChar] else [c]
  | c :: c2 :: rest =>
    if c == crChar then
      if c2 == lfChar then lfChar :: normalizeNl rest
      else lfChar :: normalizeNl (c2 :: rest)
    else c :: normalizeNl (c2 :: rest)

/-- Element text as it comes back from the parser. -/
def xmlText (s : String) : String := String.mk (normalizeNl s.data)

/-- A persisted note element: name attribute (first 30 characters of the
text), the text child content and the timestamp child content, both as
ElementTree element text, which is None when the content is empty. -/
structure Note where
  name : String
  text : Option String
  timestamp : Option String

/-- A persisted topic element: name attribute and child note elements in
document order. -/
structure Topic where
  name : String
  notes : List Note

/-- The root element: topic elements in document order. -/
abbrev Store := List Topic

/-- Element text as it survives a write-then-reparse cycle: ElementTree
serialises an element whose text is empty without content and the
parser leaves text = None on a contentless element, while non-empty
text comes back with carriage returns normalised to line feeds. -/
def etText (s : String) : Option String :=
  if s = "" then Option.none else Option.some (xmlText s)

/-- Models root.find applied to the XPath built by f-string interpolation
of the topic into "./topic[@name = ...]".  On the modelled fragment the
path reads as a conjunction of name-attribute equality predicates
(one predicate, against the whole topic string, when the topic is
quote-free) and the first topic element satisfying all of them is
returned.  The error case models the raised SyntaxError that surfaces
as a remote fault; it is exact at every concrete topic a theorem below
uses, while quote patterns that ElementPath reads as other predicate
forms are outside both the fragment and every theorem. -/
def findTopic (store : Store) (topic : String) : Except Unit (Option Topic) :=
  match topicValues topic with
  | Option.some vals =>
    Except.ok (store.find? (fun t => vals.all (fun v => t.name == v)))
  | Option.none => Except.error ()

/-- Appends the note to the first topic element with the given name,
modelling ET.SubElement on the element returned by root.find. -/
def addToFirst : Store → String → Note → Store
  | [], _, _ => []
  | t :: rest, topic, n =>
    if t.name == topic then Topic.mk t.name (t.notes ++ [n]) :: rest
    else t :: addToFirst rest topic n

/-- Models the Python line timestamp = timestamp or utcnow().strftime(...):
a missing argument and a supplied empty string are both falsy data and
are replaced by the formatted current time. -/
def resolveTimestamp (now : DateTime) (timestamp : Option String) : String :=
  match timestamp with
  | Option.some s => if s = "" then formatTimestamp now else s
  | Option.none => formatTimestamp now

/-- add_note of notebook_server.py: resolve the timestamp, locate or
create the topic element, append a note element carrying the name
attribute (text truncated to 30 characters), a text child and a
timestamp child, persist, return True.  The store component of the
result is the reparsed persisted tree. -/
def add_note (store : Store) (now : DateTime) (topic text : String)
    (timestamp : Option String) : Except Unit (Store × Py) :=
  let ts := resolveTimestamp now timestamp
  match findTopic store topic with
  | Except.error e => Except.error e
  | Except.ok found =>
    let note_name := if text.length ≤ 30 then text else text.take 30
    let note := Note.mk note_name (etText text) (etText ts)
    match found with
    | Option.none => Except.ok (store ++ [Topic.mk topic [note]], Py.bool true)
    | Option.some _ => Except.ok (addToFirst store topic note, Py.bool true)

/-- Element text as the Python value get_notes builds its pairs from. -/
def pyOfText : Option String → Py
  | Option.none => Py.none
  | Option.some s => Py.str s

/-- get_notes of notebook_server.py: locate the topic element; a missing
topic, and also an existing topic element with no children (a childless
Element is falsy in Python), give an empty list; otherwise the list of
[timestamp, text] pairs of the note children in document order. -/
def get_notes (store : Store) (topic : String) : Except Unit Py :=
  match findTopic store topic with
  | Except.error e => Except.error e
  | Except.ok Option.none => Except.ok (Py.list [])
  | Except.ok (Option.some t) =>
    if t.notes.isEmpty then Except.ok (Py.list [])
    else Except.ok (Py.list (t.notes.map (fun n =>
      Py.list [pyOfText n.timestamp, pyOfText n.text])))

/-- list_topics of notebook_server.py: the name attributes of the topic
elements in document order. -/
def list_topics (store : Store) : Except Unit Py :=
  Except.ok (Py.list (store.map (fun t => Py.str t.name)))

/-- wiki_lookup of notebook_server.py.  The argument models the expression
requests.get(...).json(): an error is a raised exception (service
unreachable, or a body that is not JSON); there is no try block in the
source, so such an error propagates.  On a decoded value the source
evaluates resp[3][0] if resp and len(resp[3]) else the empty string,
with Python truthiness, indexing and len semantics. -/
def wiki_lookup (fetch : Except Unit Py) : Except Unit Py :=
  match fetch with
  | Except.error e => Except.error e
  | Except.ok resp =>
    if pyTruthy resp then
      match pyIndex resp 3 with
      | Except.error e => Except.error e
      | Except.ok r3 =>
        match pyLen r3 with
        | Except.error e => Except.error e
        | Except.ok n =>
          if n ≠ 0 then pyIndex r3 0
          else Except.ok (Py.str "")
    else Except.ok (Py.str "")

/-- Notes currently stored under the first topic element with the given
name, the observer the specification speaks about. -/
def notesOf (store : Store) (topic : String) : List Note :=
  match store.find? (fun t => t.name == topic) with
  | Option.some t => t.notes
  | Option.none => []

/-- Number of topic elements carrying the given name. -/
def countTopic (store : Store) (topic : String) : Nat :=
  store.countP (fun t => t.name == topic)

/-- The store holds no two topic elements with equal names. -/
def uniqNames (store : Store) : Prop := (store.map Topic.name).Nodup

/-- A sequence of two-argument add_note calls as issued by the client,
each with the clock reading current at that call; a call that raises
leaves the persisted store unchanged. -/
def applyAdds : Store → List (String × String × DateTime) → Store
  | s, [] => s
  | s, a :: rest =>
    match add_note s a.2.2 a.1 a.2.1 Option.none with
    | Except.ok (s2, _) => applyAdds s2 rest
    | Except.error _ => applyAdds s rest

/-- The note a successful two-argument add_note call appends, as it rests
in the reparsed store: name attribute from the first 30 characters of
the text, text child as the parser returns it (None when empty, carriage
returns normalised), timestamp child from the clock reading current at
the call. -/
def addedNote (a : String × String × DateTime) : Note :=
  Note.mk (if a.2.1.length ≤ 30 then a.2.1 else a.2.1.take 30) (etText a.2.1)
    (etText (formatTimestamp a.2.2))

/-- Outcome of one perform_rpc call: the value handed back to the caller
(None when every attempt failed), the endpoints whose failure was
reported in report order, the position of the shared rotation after the
call, and the number of attempts made. -/
structure RpcOutcome where
  result : Py
  failures : List String
  cursor : Nat
  attempts : Nat

/-- The endpoint next(server_cycle) yields when the rotation of the given
pool stands at position k. -/
def cyc (urls : List String) (k : Nat) : String := urls.getD (k % urls.length) ""

/-- The retry loop of perform_rpc: for the given number of remaining
attempts, take the next endpoint from the rotation, invoke the method on
it (beh gives the outcome an invocation of the fixed method and
arguments has on each endpoint), return its result on success, report
the failure and continue on exception. -/
def rpcLoop (beh : String → Except Unit Py) (urls : List String) :
    Nat → Nat → RpcOutcome
  | c, 0 => RpcOutcome.mk Py.none [] c 0
  | c, Nat.succ n =>
    match beh (cyc urls c) with
    | Except.ok v => RpcOutcome.mk v [] (c + 1) 1
    | Except.error _ =>
      let rest := rpcLoop beh urls (c + 1) n
      RpcOutcome.mk rest.result (cyc urls c :: rest.failures) rest.cursor (rest.attempts + 1)

/-- perform_rpc of notebook_client.py: up to len(server_urls) attempts
starting at the current position of the shared cycle; None is returned
after the final failure. -/
def perform_rpc (beh : String → Except Unit Py) (urls : List String) (c : Nat) : RpcOutcome :=
  rpcLoop beh urls c urls.length

/-- The endpoint pool of notebook_client.py, built from ports 8000 and
8001. -/
def server_urls : List String := ["http://localhost:8000", "http://localhost:8001"]

/-- Endpoints a full round of attempts starting at cursor c reports, in
order. -/
def rotationFrom (urls : List String) (c : Nat) : List String :=
  (List.range urls.length).map (fun i => cyc urls (c + i))

/-- Concrete inputs used to exercise the theorems below. -/
def failBeh : String → Except Unit Py := fun _ => Except.error ()

/-- A method invocation that succeeds on every endpoint. -/
def okBeh : String → Except Unit Py := fun _ => Except.ok (Py.bool true)

/-- A method invocation that succeeds on endpoint B only. -/
def abBeh : String → Except Unit Py :=
  fun u => if u == "B" then Except.ok (Py.bool true) else Except.error ()

/-- A two-endpoint pool. -/
def abPool : List String := ["A", "B"]

/-- A fixed clock reading. -/
def now0 : DateTime := DateTime.mk 3 7 2026 14 5 9

/-- The balanced injection topic: the letter x, a quote, the glue
characters ] [ @ name =, a quote, and the letter x again.  Interpolated
into the XPath it reads as two predicates both requiring name equal to
x, so it can never match a topic element carrying it as its name. -/
def injTopic : String := "x" ++ sqStr ++ "][@name=" ++ sqStr ++ "x"

lemma string_data_append (s t : String) : (s ++ t).data = s.data ++ t.data := by
  cases s; cases t; rfl

lemma formatTimestamp_data (t : DateTime) :
    (formatTimestamp t).data =
      [Nat.digitChar (t.month / 10), Nat.digitChar (t.month % 10), '/',
       Nat.digitChar (t.day / 10), Nat.digitChar (t.day % 10), '/',
       Nat.digitChar (t.year % 100 / 10), Nat.digitChar (t.year % 100 % 10),
       ' ', '-', ' ',
       Nat.digitChar (t.hour / 10), Nat.digitChar (t.hour % 10), ':',
       Nat.digitChar (t.minute / 10), Nat.digitChar (t.minute % 10), ':',
       Nat.digitChar (t.second / 10), Nat.digitChar (t.second % 10)] := by
  simp [formatTimestamp, pad2, string_data_append]

lemma digitChar_isDigit : ∀ n < 10, (Nat.digitChar n).isDigit = true := by decide

lemma isTsFormat_formatTimestamp (t : DateTime) (hv : t.isValid = true) :
    isTsFormat (formatTimestamp t) = true := by
  simp only [DateTime.isValid, Bool.and_eq_true, decide_eq_true_eq] at hv
  obtain ⟨⟨⟨⟨⟨⟨h1, h2⟩, h3⟩, h4⟩, h5⟩, h6⟩, h7⟩ := hv
  simp only [isTsFormat, formatTimestamp_data]
  simp only [Bool.and_eq_true, beq_self_eq_true, and_true, true_and]
  refine ⟨⟨⟨⟨⟨⟨⟨⟨⟨⟨⟨?_, ?_⟩, ?_⟩, ?_⟩, ?_⟩, ?_⟩, ?_⟩, ?_⟩, ?_⟩, ?_⟩, ?_⟩, ?_⟩ <;>
    exact digitChar_isDigit _ (by omega)

lemma formatTimestamp_ne_empty (t : DateTime) : formatTimestamp t ≠ "" := by
  intro h
  have hd := congrArg String.data h
  rw [formatTimestamp_data] at hd
  simp at hd

lemma string_mk_data (s : String) : String.mk s.data = s := by
  cases s
  rfl

lemma digitChar_ne_cr (n : Nat) : (Nat.digitChar n != crChar) = true := by
  rcases Nat.lt_or_ge n 16 with h | h
  · interval_cases n <;> decide
  · unfold Nat.digitChar
    iterate 16 rw [if_neg (by omega)]
    decide

lemma normalizeNl_eq_self {l : List Char} (h : ∀ c ∈ l, (c == crChar) = false) :
    normalizeNl l = l := by
  induction l with
  | nil => rfl
  | cons c rest ih =>
    have hc : (c == crChar) = false := h c (List.mem_cons_self c rest)
    have hrest : ∀ x ∈ rest, (x == crChar) = false :=
      fun x hx => h x (List.mem_cons_of_mem c hx)
    cases rest with
    | nil => simp [normalizeNl, hc]
    | cons c2 rest2 => simp [normalizeNl, hc, ih hrest]

lemma xmlText_eq_self {s : String} (h : crFree s = true) : xmlText s = s := by
  have hall : ∀ c ∈ s.data, (c == crChar) = false := by
    intro c hc
    have := List.all_eq_true.mp h c hc
    simpa using this
  rw [xmlText, normalizeNl_eq_self hall, string_mk_data]

lemma crFree_formatTimestamp (t : DateTime) : crFree (formatTimestamp t) = true := by
  rw [crFree]
  apply List.all_eq_true.mpr
  intro c hc
  rw [formatTimestamp_data] at hc
  simp only [List.mem_cons, List.not_mem_nil, or_false] at hc
  rcases hc with h|h|h|h|h|h|h|h|h|h|h|h|h|h|h|h|h|h|h
  all_goals subst h
  all_goals first
  | exact digitChar_ne_cr _
  | decide

lemma xmlText_formatTimestamp (t : DateTime) :
    xmlText (formatTimestamp t) = formatTimestamp t :=
  xmlText_eq_self (crFree_formatTimestamp t)

lemma etText_formatTimestamp (t : DateTime) :
    etText (formatTimestamp t) = Option.some (formatTimestamp t) := by
  rw [etText, if_neg (formatTimestamp_ne_empty t), xmlText_formatTimestamp]

lemma topicValues_clean {topic : String} (h : hasSquote topic = false) :
    topicValues topic = Option.some [topic] := by
  rw [topicValues]
  have hsplit : topic.data.splitOnP (fun c => c == squote) = [topic.data] := by
    apply List.splitOnP_eq_single
    intro c hc
    rw [hasSquote] at h
    have := List.any_eq_false.mp h c hc
    simpa using this
  rw [hsplit]
  simp [xpathValues, string_mk_data]

lemma findTopic_clean {topic : String} (h : hasSquote topic = false) (s : Store) :
    findTopic s topic = Except.ok (s.find? (fun t => t.name == topic)) := by
  simp only [findTopic, topicValues_clean h]
  simp [List.all_cons, List.all_nil, Bool.and_true]

lemma get_notes_ok_shape {s : Store} {topic : String} {v : Py}
    (h : get_notes s topic = Except.ok v) : ∃ l, v = Py.list l := by
  rw [get_notes] at h
  split at h
  · cases h
  · cases h
    exact ⟨[], rfl⟩
  · split at h
    · cases h
      exact ⟨[], rfl⟩
    · cases h
      exact ⟨_, rfl⟩

lemma add_note_ok_val {s s2 : Store} {now : DateTime} {topic text : String}
    {tsArg : Option String} {v : Py}
    (h : add_note s now topic text tsArg = Except.ok (s2, v)) : v = Py.bool true := by
  simp only [add_note] at h
  split at h
  · cases h
  · split at h
    · cases h
      rfl
    · cases h
      rfl

lemma notesOf_nil (q : String) : notesOf [] q = [] := rfl

lemma notesOf_cons (t : Topic) (rest : Store) (q : String) :
    notesOf (t :: rest) q = if t.name == q then t.notes else notesOf rest q := by
  by_cases h : t.name == q <;> simp [notesOf, List.find?_cons, h]

lemma notesOf_append_new {s : Store} {topic : String}
    (hf : s.find? (fun t => t.name == topic) = Option.none) (n : Note) (q : String) :
    notesOf (s ++ [Topic.mk topic [n]]) q =
      notesOf s q ++ (if topic = q then [n] else []) := by
  induction s with
  | nil =>
    by_cases h : topic = q
    · simp [notesOf_cons, notesOf_nil, h]
    · simp [notesOf_cons, notesOf_nil, h, fun hh => h (by simpa using hh)]
  | cons t rest ih =>
    rw [List.find?_cons] at hf
    by_cases ht : t.name == topic
    · simp [ht] at hf
    · have hf2 : rest.find? (fun t => t.name == topic) = Option.none := by
        simpa [ht] using hf
      by_cases hq : t.name == q
      · have hqt : ¬ topic = q := by
          intro he
          exact absurd (by simp_all) (by simpa using ht)
        simp [List.cons_append, notesOf_cons, hq, hqt]
      · simp [List.cons_append, notesOf_cons, hq, ih hf2]

lemma notesOf_addToFirst {s : Store} {topic : String} {t0 : Topic}
    (hf : s.find? (fun t => t.name == topic) = Option.some t0) (n : Note) (q : String) :
    notesOf (addToFirst s topic n) q =
      notesOf s q ++ (if topic = q then [n] else []) := by
  induction s with
  | nil => simp [List.find?] at hf
  | cons t rest ih =>
    rw [List.find?_cons] at hf
    by_cases ht : t.name == topic
    · rw [addToFirst, if_pos ht]
      by_cases hq : t.name == q
      · have heq : topic = q := by
          have h1 : t.name = topic := by simpa using ht
          have h2 : t.name = q := by simpa using hq
          rw [← h1, h2]
        simp [notesOf_cons, hq, heq]
      · have hne : ¬ topic = q := by
          intro he
          apply hq
          have h1 : t.name = topic := by simpa using ht
          simp [h1, he]
        simp [notesOf_cons, hq, hne]
    · have hf2 : rest.find? (fun t => t.name == topic) = Option.some t0 := by
        simpa [ht] using hf
      rw [addToFirst, if_neg ht]
      by_cases hq : t.name == q
      · have hne : ¬ topic = q := by
          intro he
          apply ht
          have h2 : t.name = q := by simpa using hq
          simp [h2, he]
        simp [notesOf_cons, hq, hne]
      · simp [notesOf_cons, hq, ih hf2]

lemma addToFirst_names (s : Store) (topic : String) (n : Note) :
    (addToFirst s topic n).map Topic.name = s.map Topic.name := by
  induction s with
  | nil => rfl
  | cons t rest ih =>
    rw [addToFirst]
    by_cases ht : t.name == topic
    · simp [ht]
    · simp [ht, ih]

lemma add_note_ok_spec {topic : String} (h : hasSquote topic = false)
    (s : Store) (now : DateTime) (text : String) (tsArg : Option String) :
    ∃ s2, add_note s now topic text tsArg = Except.ok (s2, Py.bool true) ∧
      (∀ q, notesOf s2 q = notesOf s q ++ (if topic = q then
        [Note.mk (if text.length ≤ 30 then text else text.take 30) (etText text)
          (etText (resolveTimestamp now tsArg))] else [])) ∧
      (s2.map Topic.name = if (s.find? (fun t => t.name == topic)).isSome
        then s.map Topic.name else s.map Topic.name ++ [topic]) := by
  rw [add_note, findTopic_clean h]
  cases hf : s.find? (fun t => t.name == topic) with
  | none =>
    refine ⟨_, rfl, ?_, ?_⟩
    · intro q
      exact notesOf_append_new hf _ q
    · simp [hf]
  | some t0 =>
    refine ⟨_, rfl, ?_, ?_⟩
    · intro q
      exact notesOf_addToFirst hf _ q
    · simp [hf, addToFirst_names]

lemma countTopic_eq_count (s : Store) (topic : String) :
    countTopic s topic = (s.map Topic.name).count topic := by
  rw [countTopic, List.count, List.countP_map]
  rfl

lemma mem_names_of_find?_isSome {s : Store} {topic : String}
    (h : (s.find? (fun t => t.name == topic)).isSome = true) :
    topic ∈ s.map Topic.name := by
  cases hf : s.find? (fun t => t.name == topic) with
  | none => rw [hf] at h; simp at h
  | some t0 =>
    have hm : t0 ∈ s := List.mem_of_find?_eq_some hf
    have hp := List.find?_some hf
    have : t0.name = topic := by simpa using hp
    exact this ▸ List.mem_map_of_mem Topic.name hm

lemma not_mem_names_of_find?_none {s : Store} {topic : String}
    (h : s.find? (fun t => t.name == topic) = Option.none) :
    topic ∉ s.map Topic.name := by
  intro hm
  obtain ⟨t0, ht0, hname⟩ := List.mem_map.mp hm
  have := List.find?_eq_none.mp h t0 ht0
  simp [hname] at this

lemma uniqNames_add_note {s s2 : Store} {now : DateTime} {topic text : String}
    {tsArg : Option String} {v : Py} (hq : hasSquote topic = false)
    (hu : uniqNames s) (h2 : add_note s now topic text tsArg = Except.ok (s2, v)) :
    uniqNames s2 := by
  obtain ⟨s3, he, _, hnames⟩ := add_note_ok_spec hq s now text tsArg
  rw [he] at h2
  cases h2
  rw [uniqNames, hnames]
  by_cases hf : (s.find? (fun t => t.name == topic)).isSome = true
  · rw [if_pos hf]
    exact hu
  · rw [if_neg hf]
    have hnm : topic ∉ s.map Topic.name := by
      apply not_mem_names_of_find?_none
      cases hff : s.find? (fun t => t.name == topic) with
      | none => rfl
      | some t0 => rw [hff] at hf; simp at hf
    rw [List.nodup_append]
    refine ⟨hu, List.nodup_singleton _, ?_⟩
    intro a ha hb
    simp at hb
    exact hnm (hb ▸ ha)

lemma uniqNames_applyAdds (adds : List (String × String × DateTime))
    (hc : ∀ a ∈ adds, hasSquote a.1 = false) :
    ∀ s : Store, uniqNames s → uniqNames (applyAdds s adds) := by
  induction adds with
  | nil => intro s hu; exact hu
  | cons a rest ih =>
    intro s hu
    have ha : hasSquote a.1 = false := hc a (List.mem_cons_self a rest)
    have hrest : ∀ b ∈ rest, hasSquote b.1 = false :=
      fun b hb => hc b (List.mem_cons_of_mem a hb)
    rw [applyAdds]
    cases hadd : add_note s a.2.2 a.1 a.2.1 Option.none with
    | ok p =>
      exact ih hrest p.1 (uniqNames_add_note ha hu hadd)
    | error e => exact ih hrest s hu

lemma get_notes_clean {topic : String} (h : hasSquote topic = false) (s : Store) :
    get_notes s topic = Except.ok (Py.list ((notesOf s topic).map (fun n =>
      Py.list [pyOfText n.timestamp, pyOfText n.text]))) := by
  rw [get_notes, findTopic_clean h]
  cases hf : s.find? (fun t => t.name == topic) with
  | none => simp [notesOf, hf]
  | some t =>
    by_cases he : t.notes.isEmpty
    · have : t.notes = [] := by simpa [List.isEmpty_iff] using he
      simp [he, notesOf, hf, this]
    · simp [he, notesOf, hf]

lemma notesOf_applyAdds (adds : List (String × String × DateTime))
    (hc : ∀ a ∈ adds, hasSquote a.1 = false) :
    ∀ (s : Store) (q : String), notesOf (applyAdds s adds) q =
      notesOf s q ++ (adds.filter (fun a => a.1 == q)).map addedNote := by
  induction adds with
  | nil => intro s q; simp [applyAdds]
  | cons a rest ih =>
    intro s q
    have ha : hasSquote a.1 = false := hc a (List.mem_cons_self a rest)
    have hrest : ∀ b ∈ rest, hasSquote b.1 = false :=
      fun b hb => hc b (List.mem_cons_of_mem a hb)
    obtain ⟨s2, he, hnotes, _⟩ := add_note_ok_spec ha s a.2.2 a.2.1 Option.none
    rw [applyAdds, he, ih hrest s2 q, hnotes q, List.filter_cons]
    by_cases hq : a.1 = q
    · simp [hq, addedNote, resolveTimestamp, List.append_assoc]
    · have : (a.1 == q) = false := by simpa using hq
      simp [hq, this]

lemma cyc_mem {urls : List String} (h : urls ≠ []) (k : Nat) : cyc urls k ∈ urls := by
  have hlen : 0 < urls.length := List.length_pos.mpr h
  have hk : k % urls.length < urls.length := Nat.mod_lt _ hlen
  rw [cyc, List.getD_eq_getElem?_getD, List.getElem?_eq_getElem hk, Option.getD_some]
  exact List.getElem_mem hk

lemma cyc_add_length {urls : List String} (c : Nat) :
    cyc urls (c + urls.length) = cyc urls c := by
  rw [cyc, cyc, Nat.add_mod_right]

lemma map_cyc_range_succ (urls : List String) (c m : Nat) :
    (List.range (m + 1)).map (fun i => cyc urls (c + i)) =
      cyc urls c :: (List.range m).map (fun i => cyc urls (c + 1 + i)) := by
  rw [List.range_succ_eq_map, List.map_cons, List.map_map, Nat.add_zero]
  refine congrArg (cyc urls c :: ·) (List.map_congr_left ?_)
  intro i _
  show cyc urls (c + (i + 1)) = cyc urls (c + 1 + i)
  rw [show c + (i + 1) = c + 1 + i from by omega]

lemma rpcLoop_all_fail {beh : String → Except Unit Py} {urls : List String}
    (hne : urls ≠ []) (hall : ∀ u ∈ urls, beh u = Except.error ()) :
    ∀ (n c : Nat), rpcLoop beh urls c n =
      RpcOutcome.mk Py.none ((List.range n).map (fun i => cyc urls (c + i))) (c + n) n := by
  intro n
  induction n with
  | zero => intro c; simp [rpcLoop]
  | succ m ih =>
    intro c
    rw [rpcLoop, hall (cyc urls c) (cyc_mem hne c), ih (c + 1), map_cyc_range_succ]
    simp [Nat.add_assoc, Nat.add_comm 1 m]

lemma rpcLoop_success {beh : String → Except Unit Py} {urls : List String} {v : Py} :
    ∀ (j n c : Nat), j < n →
      (∀ i < j, beh (cyc urls (c + i)) = Except.error ()) →
      beh (cyc urls (c + j)) = Except.ok v →
      rpcLoop beh urls c n =
        RpcOutcome.mk v ((List.range j).map (fun i => cyc urls (c + i))) (c + j + 1) (j + 1) := by
  intro j
  induction j with
  | zero =>
    intro n c hj hfail hok
    obtain ⟨m, rfl⟩ : ∃ m, n = m + 1 := ⟨n - 1, by omega⟩
    rw [Nat.add_zero] at hok
    rw [rpcLoop, hok]
    simp
  | succ k ih =>
    intro n c hj hfail hok
    obtain ⟨m, rfl⟩ : ∃ m, n = m + 1 := ⟨n - 1, by omega⟩
    have h0 : beh (cyc urls c) = Except.error () := by
      have := hfail 0 (by omega)
      simpa using this
    rw [rpcLoop, h0]
    have hrec := ih m (c + 1) (by omega)
      (fun i hi => by
        have := hfail (i + 1) (by omega)
        rw [show c + (i + 1) = c + 1 + i from by omega] at this
        exact this)
      (by rw [show c + 1 + k = c + (k + 1) from by omega]; exact hok)
    rw [hrec, map_cyc_range_succ]
    have h1 : c + 1 + k + 1 = c + (k + 1) + 1 := by omega
    simp [h1]

lemma rpcLoop_cursor_attempts (beh : String → Except Unit Py) (urls : List String) :
    ∀ (n c : Nat), (rpcLoop beh urls c n).cursor = c + (rpcLoop beh urls c n).attempts := by
  intro n
  induction n with
  | zero => intro c; simp [rpcLoop]
  | succ m ih =>
    intro c
    rw [rpcLoop]
    cases hb : beh (cyc urls c) with
    | ok v => simp
    | error e =>
      show (rpcLoop beh urls (c + 1) m).cursor =
        c + ((rpcLoop beh urls (c + 1) m).attempts + 1)
      rw [ih (c + 1)]
      omega

lemma map_getD_range {α : Type} (l : List α) (d : α) :
    (List.range l.length).map (fun i => l.getD i d) = l := by
  induction l with
  | nil => rfl
  | cons a t ih =>
    rw [List.length_cons, List.range_succ_eq_map, List.map_cons, List.map_map]
    refine congrArg (a :: ·) ?_
    calc (List.range t.length).map ((fun i => (a :: t).getD i d) ∘ Nat.succ)
        = (List.range t.length).map (fun i => t.getD i d) := by
          refine List.map_congr_left ?_
          intro i _
          show (a :: t).getD (i + 1) d = t.getD i d
          rw [List.getD_cons_succ]
      _ = t := ih

lemma rotationFrom_zero (urls : List String) : rotationFrom urls 0 = urls := by
  rw [rotationFrom]
  have h1 : (List.range urls.length).map (fun i => cyc urls (0 + i)) =
      (List.range urls.length).map (fun i => urls.getD i "") := by
    refine List.map_congr_left ?_
    intro i hi
    rw [List.mem_range] at hi
    rw [cyc, Nat.zero_add, Nat.mod_eq_of_lt hi]
  rw [h1, map_getD_range]

lemma rotationFrom_succ_perm (urls : List String) (c : Nat) :
    (rotationFrom urls (c + 1)).Perm (rotationFrom urls c) := by
  cases urls with
  | nil => simp [rotationFrom]
  | cons a t =>
    have hlen : (a :: t).length = t.length + 1 := List.length_cons a t
    have hlast : cyc (a :: t) (c + 1 + t.length) = cyc (a :: t) c := by
      rw [show c + 1 + t.length = c + (t.length + 1) from by omega, ← hlen,
        cyc_add_length]
    have hA : rotationFrom (a :: t) (c + 1) =
        (List.range t.length).map (fun i => cyc (a :: t) (c + 1 + i)) ++
          [cyc (a :: t) c] := by
      rw [rotationFrom, hlen, List.range_succ, List.map_append, List.map_singleton,
        hlast]
    have hB : rotationFrom (a :: t) c =
        cyc (a :: t) c ::
          (List.range t.length).map (fun i => cyc (a :: t) (c + 1 + i)) := by
      rw [rotationFrom, hlen, map_cyc_range_succ]
    rw [hA, hB]
    exact List.perm_append_singleton _ _

lemma rotationFrom_perm (urls : List String) (c : Nat) :
    (rotationFrom urls c).Perm urls := by
  induction c with
  | zero => rw [rotationFrom_zero]
  | succ k ih => exact (rotationFrom_succ_perm urls k).trans ih

lemma rotationFrom_count {urls : List String} {u : String}
    (hnd : urls.Nodup) (hu : u ∈ urls) (c : Nat) :
    (rotationFrom urls c).count u = 1 := by
  rw [(rotationFrom_perm urls c).count_eq u]
  exact List.count_eq_one_of_mem hnd hu

lemma mod_succ_ne_iff (c N : Nat) (hN : 0 < N) : ((c + 1) % N ≠ c % N) ↔ 1 < N := by
  constructor
  · intro h
    by_contra hle
    have hN1 : N = 1 := by omega
    subst hN1
    simp [Nat.mod_one] at h
  · intro h2 heq
    have h1 : (c + 1) % N = (c % N + 1) % N := by
      conv_lhs => rw [Nat.add_mod]
      rw [Nat.mod_eq_of_lt h2]
    have hr : c % N < N := Nat.mod_lt _ hN
    rcases Nat.lt_or_ge (c % N + 1) N with hlt | hge
    · rw [h1, Nat.mod_eq_of_lt hlt] at heq
      omega
    · have hEq : c % N + 1 = N := by omega
      rw [h1, hEq, Nat.mod_self] at heq
      omega

/-- C4: when every endpoint in the pool fails, perform_rpc makes exactly
pool-size many attempts, reports a failure for the endpoints in pool
order starting from the current rotation cursor, each endpoint exactly
once, and returns the None sentinel. -/
theorem c4_exhaustion (beh : String → Except Unit Py) (urls : List String) (c : Nat)
    (hall : ∀ u ∈ urls, beh u = Except.error ()) :
    (perform_rpc beh urls c).result = Py.none ∧
    (perform_rpc beh urls c).attempts = urls.length ∧
    (perform_rpc beh urls c).failures = rotationFrom urls c ∧
    (urls.Nodup → ∀ u ∈ urls, (perform_rpc beh urls c).failures.count u = 1) := by
  by_cases hne : urls = []
  · subst hne
    refine ⟨rfl, rfl, rfl, ?_⟩
    intro _ u hu
    cases hu
  · rw [perform_rpc, rpcLoop_all_fail hne hall urls.length c]
    refine ⟨rfl, rfl, rfl, ?_⟩
    intro hnd u hu
    exact rotationFrom_count hnd hu c

/-- Witness for c4_exhaustion on the two-endpoint pool with every
endpoint failing, starting at cursor 1. -/
theorem c4_exhaustion_witness :
    (perform_rpc failBeh abPool 1).result = Py.none ∧
    (perform_rpc failBeh abPool 1).attempts = abPool.length ∧
    (perform_rpc failBeh abPool 1).failures = rotationFrom abPool 1 ∧
    (perform_rpc failBeh abPool 1).failures.count "A" = 1 := by
  have h := c4_exhaustion failBeh abPool 1 (fun u _ => rfl)
  exact ⟨h.1, h.2.1, h.2.2.1, h.2.2.2 (by decide) "A" (by decide)⟩

/-- C5: when the attempt at offset j from the cursor succeeds and all
earlier attempts failed, perform_rpc returns that result, makes exactly
j plus one attempts, and reports exactly the j earlier failures. -/
theorem c5_success_returns_immediately (beh : String → Except Unit Py)
    (urls : List String) (c j : Nat) (v : Py) (hj : j < urls.length)
    (hfail : ∀ i < j, beh (cyc urls (c + i)) = Except.error ())
    (hok : beh (cyc urls (c + j)) = Except.ok v) :
    (perform_rpc beh urls c).result = v ∧
    (perform_rpc beh urls c).attempts = j + 1 ∧
    (perform_rpc beh urls c).failures = (List.range j).map (fun i => cyc urls (c + i)) := by
  rw [perform_rpc, rpcLoop_success j urls.length c hj hfail hok]
  exact ⟨rfl, rfl, rfl⟩

/-- Witness for c5_success_returns_immediately: endpoint A fails,
endpoint B succeeds, starting rotation at A. -/
theorem c5_success_witness :
    (perform_rpc abBeh abPool 0).result = Py.bool true ∧
    (perform_rpc abBeh abPool 0).attempts = 2 ∧
    (perform_rpc abBeh abPool 0).failures = ["A"] := by
  have h := c5_success_returns_immediately abBeh abPool 0 1 (Py.bool true)
    (by decide)
    (by intro i hi
        have hi0 : i = 0 := by omega
        subst hi0
        rfl)
    rfl
  exact ⟨h.1, h.2.1, h.2.2⟩

/-- C6: the rotation cursor is taken as the call finds it and advances by
exactly the number of attempts made, never resetting; when the first
attempt succeeds the cursor advances by exactly one, so the next call
starts from a different rotation position exactly when the pool has more
than one endpoint. -/
theorem c6_rotation_continuity :
    (∀ (beh : String → Except Unit Py) (urls : List String) (c : Nat),
      (perform_rpc beh urls c).cursor = c + (perform_rpc beh urls c).attempts) ∧
    (∀ (beh : String → Except Unit Py) (urls : List String) (c : Nat) (v : Py),
      urls ≠ [] → beh (cyc urls c) = Except.ok v →
      (perform_rpc beh urls c).attempts = 1 ∧
      (perform_rpc beh urls c).cursor = c + 1 ∧
      (((c + 1) % urls.length ≠ c % urls.length) ↔ 1 < urls.length)) := by
  constructor
  · intro beh urls c
    exact rpcLoop_cursor_attempts beh urls urls.length c
  · intro beh urls c v hne hok
    have hlen : 0 < urls.length := List.length_pos.mpr hne
    have h := rpcLoop_success 0 urls.length c hlen
      (fun i hi => absurd hi (Nat.not_lt_zero i))
      (by rw [Nat.add_zero]; exact hok)
    rw [perform_rpc, h]
    exact ⟨rfl, rfl, mod_succ_ne_iff c urls.length hlen⟩

/-- Witness for c6_rotation_continuity: a call whose first attempt
succeeds on the two-endpoint pool advances the shared cursor from 5 to
6, and the next call starts from the other endpoint. -/
theorem c6_rotation_witness :
    (perform_rpc okBeh abPool 5).cursor = 5 + (perform_rpc okBeh abPool 5).attempts ∧
    (perform_rpc okBeh abPool 5).attempts = 1 ∧
    (perform_rpc okBeh abPool 5).cursor = 6 ∧
    ((6 % 2 ≠ 5 % 2) ↔ 1 < 2) := by
  have h1 := c6_rotation_continuity.1 okBeh abPool 5
  have h2 := c6_rotation_continuity.2 okBeh abPool 5 (Py.bool true) (by decide) rfl
  exact ⟨h1, h2.1, h2.2.1, h2.2.2⟩

/-- C1: when all attempts fail perform_rpc returns the Python value None
as its sentinel, and no successful call of a registered method ever
produces None as its value: a successful add_note yields True, a
successful get_notes and list_topics yield a list (empty included) and a
successful wiki_lookup on a well-formed response yields a string, so the
caller can distinguish the sentinel from every legitimate result, the
empty sequence of get_notes in particular. -/
theorem c1_sentinel_distinguishable (beh : String → Except Unit Py)
    (urls : List String) (c : Nat)
    (hall : ∀ u ∈ urls, beh u = Except.error ()) :
    (perform_rpc beh urls c).result = Py.none ∧
    (∀ (s : Store) (topic : String) (v : Py),
      get_notes s topic = Except.ok v → v ≠ Py.none) ∧
    (∀ (s : Store) (now : DateTime) (topic text : String) (tsArg : Option String)
      (s2 : Store) (v : Py),
      add_note s now topic text tsArg = Except.ok (s2, v) → v ≠ Py.none) ∧
    (∀ (s : Store) (v : Py), list_topics s = Except.ok v → v ≠ Py.none) ∧
    (∀ (links : List String) (q : String) (sugg desc v : Py),
      wiki_lookup (Except.ok (Py.list [Py.str q, sugg, desc,
        Py.list (links.map Py.str)])) = Except.ok v → v ≠ Py.none) := by
  refine ⟨?_, ?_, ?_, ?_, ?_⟩
  · by_cases hne : urls = []
    · subst hne
      rfl
    · rw [perform_rpc, rpcLoop_all_fail hne hall urls.length c]
  · intro s topic v h
    obtain ⟨l, rfl⟩ := get_notes_ok_shape h
    intro hc
    cases hc
  · intro s now topic text tsArg s2 v h
    rw [add_note_ok_val h]
    intro hc
    cases hc
  · intro s v h
    rw [list_topics] at h
    cases h
    intro hc
    cases hc
  · intro links q sugg desc v h
    cases links with
    | nil =>
      simp [wiki_lookup, pyTruthy, pyIndex, pyLen] at h
      rw [← h]
      intro hc
      cases hc
    | cons u rest =>
      simp [wiki_lookup, pyTruthy, pyIndex, pyLen] at h
      rw [← h]
      intro hc
      cases hc

/-- Witness for c1_sentinel_distinguishable: every endpoint of the real
pool failing gives the None sentinel, while get_notes succeeding on an
empty store gives the empty list, a different value. -/
theorem c1_sentinel_witness :
    (perform_rpc failBeh server_urls 0).result = Py.none ∧ Py.list [] ≠ Py.none := by
  have h := c1_sentinel_distinguishable failBeh server_urls 0 (fun u _ => rfl)
  exact ⟨h.1, h.2.1 [] "x" (Py.list []) rfl⟩

/-- C2 (amended): for any sequence of two-argument add_note calls whose
topics carry no single quote and are XML-clean, and whose texts are
non-empty, carriage-return-free and XML-clean, get_notes on a quote-free
topic returns exactly the timestamp and text pairs of the notes added
under that topic, in insertion order. -/
theorem c2_roundtrip_amended (adds : List (String × String × DateTime)) (topic : String)
    (hc : ∀ a ∈ adds, (hasSquote a.1 = false ∧ xmlSafe a.1 = true) ∧
      (a.2.1 ≠ "" ∧ crFree a.2.1 = true ∧ xmlSafe a.2.1 = true))
    (ht : hasSquote topic = false) :
    get_notes (applyAdds [] adds) topic =
      Except.ok (Py.list ((adds.filter (fun a => a.1 == topic)).map (fun a =>
        Py.list [Py.str (formatTimestamp a.2.2), Py.str a.2.1]))) := by
  rw [get_notes_clean ht, notesOf_applyAdds adds (fun a ha => (hc a ha).1.1) [] topic,
    notesOf_nil, List.nil_append, List.map_map]
  refine congrArg (fun l => Except.ok (Py.list l)) (List.map_congr_left ?_)
  intro a ha
  have hmem := List.mem_of_mem_filter ha
  have hane : a.2.1 ≠ "" := (hc a hmem).2.1
  have hacr : crFree a.2.1 = true := (hc a hmem).2.2.1
  simp [Function.comp, addedNote, etText, hane, pyOfText, formatTimestamp_ne_empty,
    xmlText_formatTimestamp, xmlText_eq_self hacr]

/-- C2 counterexample: a single add_note with empty text, read back,
yields the pair carrying None in the text position, not the empty string
that was added, so the round trip is not verbatim. -/
theorem c2_roundtrip_counterexample :
    get_notes (applyAdds [] [("t", "", now0)]) "t" =
      Except.ok (Py.list [Py.list [Py.str (formatTimestamp now0), Py.none]]) ∧
    Py.none ≠ Py.str "" := by
  refine ⟨rfl, ?_⟩
  intro hc
  cases hc

/-- Witness for c2_roundtrip_amended on a three-call sequence over two
topics. -/
theorem c2_roundtrip_witness :
    get_notes (applyAdds []
        [("cooking", "boil water", now0), ("other", "x", now0), ("cooking", "peel", now0)])
      "cooking" =
      Except.ok (Py.list
        [Py.list [Py.str (formatTimestamp now0), Py.str "boil water"],
         Py.list [Py.str (formatTimestamp now0), Py.str "peel"]]) := by
  have h := c2_roundtrip_amended
    [("cooking", "boil water", now0), ("other", "x", now0), ("cooking", "peel", now0)]
    "cooking" (by decide) (by decide)
  exact h

/-- C3 (amended): the store never holds two topic elements with equal
names under any sequence of client add_note calls whose topics carry no
single quote; and for an XML-clean topic containing no single quote,
two add_note calls with the same topic append both notes to the single
topic element of that name.  A quote-bearing topic is interpolated into
the XPath unquoted, where it can be read as an injected predicate and
create duplicate equal-named elements, as the counterexample shows. -/
theorem c3_unique_topics_amended :
    (∀ adds : List (String × String × DateTime),
      (∀ a ∈ adds, hasSquote a.1 = false) → uniqNames (applyAdds [] adds)) ∧
    (∀ (s : Store) (now1 now2 : DateTime) (topic x y : String),
      hasSquote topic = false → xmlSafe topic = true → xmlSafe x = true →
      xmlSafe y = true → uniqNames s →
      ∃ s1 s2, add_note s now1 topic x Option.none = Except.ok (s1, Py.bool true) ∧
        add_note s1 now2 topic y Option.none = Except.ok (s2, Py.bool true) ∧
        notesOf s2 topic = notesOf s topic ++
          [Note.mk (if x.length ≤ 30 then x else x.take 30) (etText x)
            (etText (formatTimestamp now1)),
           Note.mk (if y.length ≤ 30 then y else y.take 30) (etText y)
            (etText (formatTimestamp now2))] ∧
        countTopic s2 topic = 1) := by
  constructor
  · intro adds hq
    exact uniqNames_applyAdds adds hq [] (by simp [uniqNames])
  · intro s now1 now2 topic x y ht _ _ _ hu
    obtain ⟨s1, he1, hn1, hnames1⟩ := add_note_ok_spec ht s now1 x Option.none
    obtain ⟨s2, he2, hn2, hnames2⟩ := add_note_ok_spec ht s1 now2 y Option.none
    refine ⟨s1, s2, he1, he2, ?_, ?_⟩
    · rw [hn2 topic, if_pos rfl, hn1 topic, if_pos rfl, List.append_assoc]
      rfl
    · have hsome1 : (s1.find? (fun t => t.name == topic)).isSome = true := by
        cases hf : s1.find? (fun t => t.name == topic) with
        | none =>
          have hnil : notesOf s1 topic = [] := by simp [notesOf, hf]
          rw [hn1 topic, if_pos rfl] at hnil
          simp at hnil
        | some t0 => rfl
      rw [countTopic_eq_count, hnames2, if_pos hsome1, hnames1]
      by_cases hf0 : (s.find? (fun t => t.name == topic)).isSome = true
      · rw [if_pos hf0]
        have hmem : topic ∈ s.map Topic.name := mem_names_of_find?_isSome hf0
        have hle : (s.map Topic.name).count topic ≤ 1 :=
          List.nodup_iff_count_le_one.mp hu topic
        have hpos : 0 < (s.map Topic.name).count topic := List.count_pos_iff.mpr hmem
        omega
      · rw [if_neg hf0]
        have hnone : s.find? (fun t => t.name == topic) = Option.none := by
          cases hf : s.find? (fun t => t.name == topic) with
          | none => rfl
          | some t0 => rw [hf] at hf0; simp at hf0
        have hnm := not_mem_names_of_find?_none hnone
        rw [List.count_append]
        have h0 : (s.map Topic.name).count topic = 0 :=
          List.count_eq_zero.mpr hnm
        simp [h0]

/-- C3 counterexample: two add_note calls with the balanced injection
topic both miss the topic element the first call created, because the
interpolated XPath compares the name attribute against the letter x
rather than the whole string, so the store ends up holding two topic
elements with the same name, breaking uniqueness.  This matches the
behaviour of ElementTree on the same calls. -/
theorem c3_unique_topics_counterexample :
    countTopic (applyAdds [] [(injTopic, "a", now0), (injTopic, "b", now0)]) injTopic = 2 ∧
    ¬ uniqNames (applyAdds [] [(injTopic, "a", now0), (injTopic, "b", now0)]) := by
  constructor
  · rfl
  · unfold uniqNames
    decide

/-- Witness for c3_unique_topics_amended at an empty store and the topic
cooking. -/
theorem c3_unique_topics_witness :
    ∃ s1 s2, add_note [] now0 "cooking" "a" Option.none = Except.ok (s1, Py.bool true) ∧
      add_note s1 now0 "cooking" "b" Option.none = Except.ok (s2, Py.bool true) ∧
      notesOf s2 "cooking" = notesOf ([] : Store) "cooking" ++
        [Note.mk "a" (etText "a") (etText (formatTimestamp now0)),
         Note.mk "b" (etText "b") (etText (formatTimestamp now0))] ∧
      countTopic s2 "cooking" = 1 := by
  have h := c3_unique_topics_amended.2 [] now0 now0 "cooking" "a" "b"
    (by decide) (by decide) (by decide) (by decide) (by simp [uniqNames])
  exact h

/-- C7 (amended): for a topic without a single quote that is not in the
store, get_notes succeeds with the empty list rather than a fault; the
operation reads the tree and writes nothing, so the store is unchanged
by construction. -/
theorem c7_unknown_topic_amended (s : Store) (topic : String)
    (ht : hasSquote topic = false)
    (habs : s.find? (fun t => t.name == topic) = Option.none) :
    get_notes s topic = Except.ok (Py.list []) := by
  rw [get_notes_clean ht]
  simp [notesOf, habs]

/-- C7 counterexample: this concrete topic, the word dont with a quote
before the t, is not in the store, yet get_notes raises (a remote
fault) instead of returning the empty list, because ElementTree rejects
the interpolated XPath predicate. -/
theorem c7_unknown_topic_counterexample :
    get_notes [] ("don" ++ sqStr ++ "t") = Except.error () ∧
    (Except.error () : Except Unit Py) ≠ Except.ok (Py.list []) := by
  refine ⟨rfl, ?_⟩
  intro hc
  cases hc

/-- Witness for c7_unknown_topic_amended on the empty store. -/
theorem c7_unknown_topic_witness :
    get_notes [] "missing" = Except.ok (Py.list []) := by
  exact c7_unknown_topic_amended [] "missing" (by decide) rfl

/-- C8 (amended): an add_note call without a supplied timestamp, on an
XML-clean topic without a single quote and an XML-clean text, appends a
note stamped with the formatted current UTC clock reading, in the shape
MM/DD/YY - HH:MM:SS, and returns True. -/
theorem c8_auto_timestamp_amended (s : Store) (now : DateTime) (topic text : String)
    (ht : hasSquote topic = false) (_hxs : xmlSafe topic = true)
    (_hxt : xmlSafe text = true) (hv : now.isValid = true) :
    ∃ s2, add_note s now topic text Option.none = Except.ok (s2, Py.bool true) ∧
      notesOf s2 topic = notesOf s topic ++
        [Note.mk (if text.length ≤ 30 then text else text.take 30) (etText text)
          (Option.some (formatTimestamp now))] ∧
      isTsFormat (formatTimestamp now) = true := by
  obtain ⟨s2, he, hn, _⟩ := add_note_ok_spec ht s now text Option.none
  refine ⟨s2, he, ?_, isTsFormat_formatTimestamp now hv⟩
  rw [hn topic, if_pos rfl]
  simp [resolveTimestamp, etText_formatTimestamp]

/-- C8 counterexample: this concrete add_note call without a supplied
timestamp, whose topic is the word oclock with a quote after the o,
raises instead of inserting a stamped note and returning True, because
ElementTree rejects the interpolated XPath predicate. -/
theorem c8_auto_timestamp_counterexample :
    add_note [] now0 ("o" ++ sqStr ++ "clock") "x" Option.none = Except.error () := rfl

/-- Witness for c8_auto_timestamp_amended at the empty store. -/
theorem c8_auto_timestamp_witness :
    ∃ s2, add_note [] now0 "cooking" "boil water" Option.none =
        Except.ok (s2, Py.bool true) ∧
      notesOf s2 "cooking" = notesOf ([] : Store) "cooking" ++
        [Note.mk "boil water" (etText "boil water")
          (Option.some (formatTimestamp now0))] ∧
      isTsFormat (formatTimestamp now0) = true := by
  exact c8_auto_timestamp_amended [] now0 "cooking" "boil water" (by decide)
    (by decide) (by decide) (by decide)

/-- C9 (amended): on a well-formed opensearch response wiki_lookup
returns the first URL, or the empty string when the link list (or the
whole response) is empty; but an unreachable service or a malformed
body, modelled as a raised exception in the fetch step, propagates as a
fault because the source has no try block around the request. -/
theorem c9_wiki_lookup_amended :
    wiki_lookup (Except.error ()) = Except.error () ∧
    (∀ (q : String) (sugg desc : Py),
      wiki_lookup (Except.ok (Py.list [Py.str q, sugg, desc, Py.list []])) =
        Except.ok (Py.str "")) ∧
    (∀ (q url : String) (sugg desc : Py) (rest : List Py),
      wiki_lookup (Except.ok (Py.list [Py.str q, sugg, desc,
        Py.list (Py.str url :: rest)])) = Except.ok (Py.str url)) ∧
    (∀ resp : Py, pyTruthy resp = false →
      wiki_lookup (Except.ok resp) = Except.ok (Py.str "")) := by
  refine ⟨rfl, ?_, ?_, ?_⟩
  · intro q sugg desc
    rfl
  · intro q url sugg desc rest
    simp [wiki_lookup, pyTruthy, pyIndex, pyLen]
  · intro resp h
    simp [wiki_lookup, h]

/-- C9 counterexample: with the reference service unreachable the
request raises, wiki_lookup propagates the exception as a fault, and the
result is not the empty string the claim promises. -/
theorem c9_wiki_lookup_counterexample :
    wiki_lookup (Except.error ()) = Except.error () ∧
    (Except.error () : Except Unit Py) ≠ Except.ok (Py.str "") := by
  refine ⟨rfl, ?_⟩
  intro hc
  cases hc

/-- Witness for c9_wiki_lookup_amended at concrete responses. -/
theorem c9_wiki_lookup_witness :
    wiki_lookup (Except.error ()) = Except.error () ∧
    wiki_lookup (Except.ok (Py.list [Py.str "q", Py.list [], Py.list [],
      Py.list [Py.str "https://en.wikipedia.org/wiki/Q"]])) =
      Except.ok (Py.str "https://en.wikipedia.org/wiki/Q") ∧
    wiki_lookup (Except.ok (Py.list [])) = Except.ok (Py.str "") := by
  have h := c9_wiki_lookup_amended
  exact ⟨h.1,
    h.2.2.1 "q" "https://en.wikipedia.org/wiki/Q" (Py.list []) (Py.list []) [],
    h.2.2.2 (Py.list []) rfl⟩

/-- C10 (amended): the timestamp resolution of add_note treats a supplied
empty string exactly like a missing argument, replacing it with the
formatted clock reading, and keeps any non-empty supplied string; on an
XML-clean topic without a single quote and an XML-clean text, the note
appended to the store carries exactly that resolved timestamp, verbatim
when the supplied string is XML-clean and free of carriage returns
(a carriage return in the stored timestamp is normalised to a line feed
on reload). -/
theorem c10_empty_timestamp_amended (now : DateTime) :
    resolveTimestamp now (Option.some "") = formatTimestamp now ∧
    (∀ ts : String, ts ≠ "" → resolveTimestamp now (Option.some ts) = ts) ∧
    (∀ (s : Store) (topic text ts : String), hasSquote topic = false →
      xmlSafe topic = true → xmlSafe text = true →
      ts ≠ "" → crFree ts = true → xmlSafe ts = true →
      (∃ s2, add_note s now topic text (Option.some "") = Except.ok (s2, Py.bool true) ∧
        notesOf s2 topic = notesOf s topic ++
          [Note.mk (if text.length ≤ 30 then text else text.take 30) (etText text)
            (Option.some (formatTimestamp now))]) ∧
      (∃ s3, add_note s now topic text (Option.some ts) = Except.ok (s3, Py.bool true) ∧
        notesOf s3 topic = notesOf s topic ++
          [Note.mk (if text.length ≤ 30 then text else text.take 30) (etText text)
            (Option.some ts)])) := by
  refine ⟨by simp [resolveTimestamp], ?_, ?_⟩
  · intro ts h
    simp [resolveTimestamp, h]
  · intro s topic text ts ht _ _ hts hcr _
    constructor
    · obtain ⟨s2, he, hn, _⟩ := add_note_ok_spec ht s now text (Option.some "")
      refine ⟨s2, he, ?_⟩
      rw [hn topic, if_pos rfl]
      simp [resolveTimestamp, etText_formatTimestamp]
    · obtain ⟨s3, he, hn, _⟩ := add_note_ok_spec ht s now text (Option.some ts)
      refine ⟨s3, he, ?_⟩
      rw [hn topic, if_pos rfl]
      simp [resolveTimestamp, hts, etText, xmlText_eq_self hcr]

/-- C10 counterexample: this concrete add_note call supplies a non-empty
timestamp, but its topic, the word cant with a quote before the t,
makes ElementTree reject the interpolated XPath predicate, so the call
raises and nothing is stored, let alone the supplied timestamp
verbatim. -/
theorem c10_empty_timestamp_counterexample :
    add_note [] now0 ("can" ++ sqStr ++ "t") "x"
      (Option.some "01/02/03 - 04:05:06") = Except.error () := rfl

/-- Witness for c10_empty_timestamp_amended at the empty store. -/
theorem c10_empty_timestamp_witness :
    resolveTimestamp now0 (Option.some "") = formatTimestamp now0 ∧
    resolveTimestamp now0 (Option.some "01/02/03 - 04:05:06") = "01/02/03 - 04:05:06" ∧
    (∃ s3, add_note [] now0 "cooking" "x" (Option.some "01/02/03 - 04:05:06") =
        Except.ok (s3, Py.bool true) ∧
      notesOf s3 "cooking" = notesOf ([] : Store) "cooking" ++
        [Note.mk "x" (etText "x") (Option.some "01/02/03 - 04:05:06")]) := by
  have h := c10_empty_timestamp_amended now0
  exact ⟨h.1, h.2.1 "01/02/03 - 04:05:06" (by decide),
    (h.2.2 [] "cooking" "x" "01/02/03 - 04:05:06" (by decide) (by decide)
      (by decide) (by decide) (by decide) (by decide)).2⟩
